import Mathlib

/-!
Verification of the GPyTorch example programs (spectral-mixture exact GP
regression and deep-kernel-learning KISS-GP regression) against their
natural-language specification.

The two programs under scrutiny are notebooks; the GPyTorch library calls
they make (the `ExactGP` train/eval dispatch, `ExactMarginalLogLikelihood`,
`GaussianLikelihood`, `SpectralMixtureKernel`, `confidence_region`, the
`gpytorch.settings` context managers) are library code whose sources are not
part of the example files, so those parts are modelled from the specification
and clearly marked as such; everything the notebooks themselves compute
(the deep-kernel forward pass with its per-batch feature rescaling, the
training data construction, the training loss, the call sites with their
ambient settings) is embedded directly from the notebook code.

Numbers are embedded as exact rationals wherever the property is algebraic,
and as reals where the specification's formulas need `log`, `exp`, `sin`,
`cos`, `sqrt` or `π`.
-/

namespace GP

/-- The two-element mode type of a GPyTorch model: `model.train()` puts the
model in TRAIN mode, `model.eval()` in EVAL mode. -/
inductive Mode where
  | TRAIN : Mode
  | EVAL : Mode
deriving DecidableEq

/-- A multivariate normal distribution, as returned by a model forward pass:
a mean vector and a covariance matrix. -/
structure MVN (α : Type) (t : ℕ) where
  mean : Fin t → α
  covar : Matrix (Fin t) (Fin t) α
deriving DecidableEq

/-- Matrix inverse over a field, written explicitly as `det⁻¹ • adjugate` so
that it stays computable over `ℚ`. -/
def matInv {α : Type} [Field α] {m : ℕ} (A : Matrix (Fin m) (Fin m) α) :
    Matrix (Fin m) (Fin m) α :=
  A.det⁻¹ • A.adjugate

/-- The state of a fitted exact GP model: stored training inputs and targets,
a mean function, a (pairwise) kernel function and the likelihood noise
variance. -/
structure ExactGPState (α : Type) (n d : ℕ) where
  trainX : Matrix (Fin n) (Fin d) α
  trainY : Fin n → α
  meanFn : (Fin d → α) → α
  kernelFn : (Fin d → α) → (Fin d → α) → α
  noise : α

/-- The kernel matrix between two batches of inputs. -/
def kernelMat {α : Type} {d a b : ℕ} (kf : (Fin d → α) → (Fin d → α) → α)
    (X : Matrix (Fin a) (Fin d) α) (Y : Matrix (Fin b) (Fin d) α) :
    Matrix (Fin a) (Fin b) α :=
  fun i j => kf (X i) (Y j)

/-- The GP prior at a batch of inputs: mean function and kernel applied
directly, as the notebooks' `forward` methods do. -/
def priorDist {α : Type} {n d t : ℕ} (m : ExactGPState α n d)
    (X : Matrix (Fin t) (Fin d) α) : MVN α t :=
  ⟨fun i => m.meanFn (X i), kernelMat m.kernelFn X X⟩

/-- Modelled from the spec: the posterior predictive distribution computed by
the library's EVAL-mode dispatch (not present under src). Spec section 4.7:
mean `m(X*) + K(X*,X)(K+sigma2 I)⁻¹(y − m(X))` and covariance
`K(X*,X*) − K(X*,X)(K+sigma2 I)⁻¹K(X,X*)`. -/
def posteriorDist {α : Type} [Field α] {n d t : ℕ} (m : ExactGPState α n d)
    (X : Matrix (Fin t) (Fin d) α) : MVN α t :=
  let K : Matrix (Fin n) (Fin n) α := kernelMat m.kernelFn m.trainX m.trainX
  let Ks : Matrix (Fin t) (Fin n) α := kernelMat m.kernelFn X m.trainX
  let A : Matrix (Fin n) (Fin n) α := matInv (K + m.noise • (1 : Matrix (Fin n) (Fin n) α))
  ⟨fun i => m.meanFn (X i) + (Ks.mulVec (A.mulVec (fun j => m.trainY j - m.meanFn (m.trainX j)))) i,
   kernelMat m.kernelFn X X - Ks * A * Ks.transpose⟩

/-- Modelled from the spec: the `ExactGP.__call__` train/eval dispatch is
library code not present under src. Spec section 4.5: in TRAIN mode the model
returns the prior, in EVAL mode the posterior conditioned on the stored
training data; these are the only two behaviours. -/
def exactGPCall {α : Type} [Field α] {n d t : ℕ} (mode : Mode)
    (m : ExactGPState α n d) (X : Matrix (Fin t) (Fin d) α) : MVN α t :=
  match mode with
  | Mode.TRAIN => priorDist m X
  | Mode.EVAL => posteriorDist m X

/-- A model together with its current mode flag; `model.train()` and
`model.eval()` mutate only this flag. -/
structure ModedModel (α : Type) (n d : ℕ) where
  state : ExactGPState α n d
  mode : Mode

/-- Caller-driven transition into TRAIN mode (`model.train()`). -/
def train_mode {α : Type} {n d : ℕ} (m : ModedModel α n d) : ModedModel α n d :=
  ⟨m.state, Mode.TRAIN⟩

/-- Caller-driven transition into EVAL mode (`model.eval()`). -/
def eval_mode {α : Type} {n d : ℕ} (m : ModedModel α n d) : ModedModel α n d :=
  ⟨m.state, Mode.EVAL⟩

/-- Calling the model on a batch dispatches on the current mode. -/
def callModel {α : Type} [Field α] {n d t : ℕ} (m : ModedModel α n d)
    (X : Matrix (Fin t) (Fin d) α) : MVN α t :=
  exactGPCall m.mode m.state X

/-- C4: the model is a two-state machine with exactly the states TRAIN and
EVAL; `train_mode`/`eval_mode` are caller-driven transitions that change only
the mode flag, and for every input batch the call returns the prior in TRAIN
mode and the posterior conditioned on the stored training data in EVAL mode;
no other state is reachable. -/
theorem exactGP_two_state_machine :
    (∀ mo : Mode, mo = Mode.TRAIN ∨ mo = Mode.EVAL) ∧
    (∀ (n d t : ℕ) (mm : ModedModel ℚ n d) (X : Matrix (Fin t) (Fin d) ℚ),
      (train_mode mm).state = mm.state ∧ (eval_mode mm).state = mm.state ∧
      (train_mode mm).mode = Mode.TRAIN ∧ (eval_mode mm).mode = Mode.EVAL ∧
      callModel (train_mode mm) X = priorDist mm.state X ∧
      callModel (eval_mode mm) X = posteriorDist mm.state X) := by
  constructor
  · intro mo
    cases mo
    · exact Or.inl rfl
    · exact Or.inr rfl
  · intro n d t mm X
    exact ⟨rfl, rfl, rfl, rfl, rfl, rfl⟩

namespace DKL

/-- Column-wise minimum of a nonempty batch of feature vectors:
`projected_x.min(0)[0]` in the notebook. -/
def colMin {n k : ℕ} (P : Matrix (Fin (n + 1)) (Fin k) ℚ) (j : Fin k) : ℚ :=
  Finset.univ.inf' Finset.univ_nonempty (fun i => P i j)

/-- Column-wise maximum of a nonempty batch of feature vectors:
`projected_x.max(0)[0]` in the notebook. -/
def colMax {n k : ℕ} (P : Matrix (Fin (n + 1)) (Fin k) ℚ) (j : Fin k) : ℚ :=
  Finset.univ.sup' Finset.univ_nonempty (fun i => P i j)

/-- First rescaling step of `GPRegressionModel.forward`:
`projected_x = projected_x - projected_x.min(0)[0]`. -/
def subMin {n k : ℕ} (P : Matrix (Fin (n + 1)) (Fin k) ℚ) :
    Matrix (Fin (n + 1)) (Fin k) ℚ :=
  fun i j => P i j - colMin P j

/-- Second rescaling step of `GPRegressionModel.forward`:
`projected_x = 2 * (projected_x / projected_x.max(0)[0]) - 1`, the division
being by the column maximum of the already-shifted matrix, with no guard
against a zero denominator. -/
def scaleUnit {n k : ℕ} (P : Matrix (Fin (n + 1)) (Fin k) ℚ) :
    Matrix (Fin (n + 1)) (Fin k) ℚ :=
  fun i j => 2 * (P i j / colMax P j) - 1

/-- The deep-kernel GP regression model of the notebook: a neural feature
extractor `R^d → R^k` (opaque differentiable map, applied row-wise), a
`ConstantMean` module, a pairwise covariance kernel (the
`GridInterpolationKernel(ScaleKernel(RBFKernel))` stack, opaque here), and the
training data and noise stored by `ExactGP.__init__`. -/
structure GPRegressionModel (d k nt : ℕ) where
  feature_extractor : (Fin d → ℚ) → (Fin k → ℚ)
  meanConstant : ℚ
  covarKernel : (Fin k → ℚ) → (Fin k → ℚ) → ℚ
  trainX : Matrix (Fin (nt + 1)) (Fin d) ℚ
  trainY : Fin (nt + 1) → ℚ
  noise : ℚ

/-- The feature extractor applied row-wise to a batch:
`projected_x = self.feature_extractor(x)`. -/
def extractOut {d k nt t : ℕ} (m : GPRegressionModel d k nt)
    (x : Matrix (Fin (t + 1)) (Fin d) ℚ) : Matrix (Fin (t + 1)) (Fin k) ℚ :=
  fun i => m.feature_extractor (x i)

/-- The projected features handed to the mean and covariance modules: the
extractor output after the two rescaling lines of the notebook's `forward`. -/
def projectedFeatures {d k nt t : ℕ} (m : GPRegressionModel d k nt)
    (x : Matrix (Fin (t + 1)) (Fin d) ℚ) : Matrix (Fin (t + 1)) (Fin k) ℚ :=
  scaleUnit (subMin (extractOut m x))

/-- The `ConstantMean` module applied to a batch of projected features. -/
def mean_module {d k nt t : ℕ} (m : GPRegressionModel d k nt)
    (_P : Matrix (Fin t) (Fin k) ℚ) : Fin t → ℚ :=
  fun _ => m.meanConstant

/-- The covariance module applied to a batch of projected features. -/
def covar_module {d k nt t : ℕ} (m : GPRegressionModel d k nt)
    (P : Matrix (Fin t) (Fin k) ℚ) : Matrix (Fin t) (Fin t) ℚ :=
  fun i j => m.covarKernel (P i) (P j)

/-- `GPRegressionModel.forward` from the notebook: extractor, then the
per-batch rescaling, then the mean and covariance modules, returned as a
`MultivariateNormal`. -/
def forward {d k nt t : ℕ} (m : GPRegressionModel d k nt)
    (x : Matrix (Fin (t + 1)) (Fin d) ℚ) : GP.MVN ℚ (t + 1) :=
  ⟨mean_module m (projectedFeatures m x), covar_module m (projectedFeatures m x)⟩

/-- The observable record of one model call: the projected features the
kernel modules received, and the returned distribution. -/
structure DKLCallResult (k t : ℕ) where
  featuresToKernel : Matrix (Fin t) (Fin k) ℚ
  dist : GP.MVN ℚ t

/-- Modelled from the spec: the `ExactGP` train/eval call dispatch is library
code not present under src. Per spec sections 4.4 and 4.5 the forward pass —
including the per-batch feature rescaling — runs identically in both modes
and is recomputed from the given batch's own statistics at every call; EVAL
mode additionally performs the Gaussian conditioning of section 4.7 on the
stored training data, whose features are likewise recomputed from the
training batch's own statistics rather than read from a cache. -/
def dklCall {d k nt t : ℕ} (mode : GP.Mode) (m : GPRegressionModel d k nt)
    (x : Matrix (Fin (t + 1)) (Fin d) ℚ) : DKLCallResult k (t + 1) :=
  let feats := projectedFeatures m x
  let priorMean := mean_module m feats
  let priorCov := covar_module m feats
  match mode with
  | GP.Mode.TRAIN => ⟨feats, priorMean, priorCov⟩
  | GP.Mode.EVAL =>
    let trainFeats := projectedFeatures m m.trainX
    let K : Matrix (Fin (nt + 1)) (Fin (nt + 1)) ℚ := covar_module m trainFeats
    let Ks : Matrix (Fin (t + 1)) (Fin (nt + 1)) ℚ :=
      fun i j => m.covarKernel (feats i) (trainFeats j)
    let A := GP.matInv (K + m.noise • (1 : Matrix (Fin (nt + 1)) (Fin (nt + 1)) ℚ))
    ⟨feats,
     fun i => priorMean i + (Ks.mulVec (A.mulVec (fun j => m.trainY j - m.meanConstant))) i,
     priorCov - Ks * A * Ks.transpose⟩

theorem colMin_le {n k : ℕ} (P : Matrix (Fin (n + 1)) (Fin k) ℚ)
    (i : Fin (n + 1)) (j : Fin k) : colMin P j ≤ P i j :=
  Finset.inf'_le (fun i => P i j) (Finset.mem_univ i)

theorem le_colMax {n k : ℕ} (P : Matrix (Fin (n + 1)) (Fin k) ℚ)
    (i : Fin (n + 1)) (j : Fin k) : P i j ≤ colMax P j :=
  Finset.le_sup' (fun i => P i j) (Finset.mem_univ i)

theorem colMax_le {n k : ℕ} (P : Matrix (Fin (n + 1)) (Fin k) ℚ) (j : Fin k)
    (c : ℚ) (h : ∀ i, P i j ≤ c) : colMax P j ≤ c :=
  Finset.sup'_le _ _ fun i _ => h i

theorem colMax_subMin {n k : ℕ} (P : Matrix (Fin (n + 1)) (Fin k) ℚ) (j : Fin k) :
    colMax (subMin P) j = colMax P j - colMin P j := by
  apply le_antisymm
  · exact colMax_le _ _ _ fun i => sub_le_sub_right (le_colMax P i j) _
  · rw [sub_le_iff_le_add]
    apply colMax_le
    intro i
    have h := le_colMax (subMin P) i j
    have h2 : subMin P i j = P i j - colMin P j := rfl
    linarith

end DKL

/-- C1: for every input batch, the deep-kernel model's forward pass first
applies the feature extractor, then rescales the result per-feature using
that batch's own minimum and maximum — an affine map per feature sending the
batch minimum to −1 and the batch maximum to +1 — and only then applies the
mean and covariance modules. Stated for any feature whose batch minimum is
strictly below its batch maximum (so the rescaling division is defined). -/
theorem dkl_forward_applies_extractor_then_rescale
    {d k nt t : ℕ} (m : DKL.GPRegressionModel d k nt)
    (x : Matrix (Fin (t + 1)) (Fin d) ℚ) (j : Fin k) (i₀ i₁ : Fin (t + 1))
    (hmin : DKL.extractOut m x i₀ j = DKL.colMin (DKL.extractOut m x) j)
    (hmax : DKL.extractOut m x i₁ j = DKL.colMax (DKL.extractOut m x) j)
    (hlt : DKL.colMin (DKL.extractOut m x) j < DKL.colMax (DKL.extractOut m x) j) :
    DKL.forward m x = ⟨DKL.mean_module m (DKL.projectedFeatures m x),
      DKL.covar_module m (DKL.projectedFeatures m x)⟩ ∧
    DKL.projectedFeatures m x = DKL.scaleUnit (DKL.subMin (DKL.extractOut m x)) ∧
    DKL.projectedFeatures m x i₀ j = -1 ∧
    DKL.projectedFeatures m x i₁ j = 1 ∧
    ∃ a b : ℚ, 0 < a ∧
      ∀ i, DKL.projectedFeatures m x i j = a * DKL.extractOut m x i j + b := by
  set P := DKL.extractOut m x with hP
  set mn := DKL.colMin P j with hmn
  set mx := DKL.colMax P j with hmx
  have hD : mx - mn ≠ 0 := sub_ne_zero.mpr (ne_of_gt hlt)
  have hDpos : 0 < mx - mn := sub_pos.mpr hlt
  have hval : ∀ i, DKL.projectedFeatures m x i j = 2 * ((P i j - mn) / (mx - mn)) - 1 := by
    intro i
    show 2 * (DKL.subMin P i j / DKL.colMax (DKL.subMin P) j) - 1 = _
    rw [DKL.colMax_subMin]
    rfl
  refine ⟨rfl, rfl, ?_, ?_, 2 / (mx - mn), -(2 * mn / (mx - mn)) - 1, ?_, ?_⟩
  · rw [hval i₀]
    rw [show P i₀ j - mn = 0 by rw [hmin]; ring]
    rw [zero_div]
    ring
  · rw [hval i₁]
    rw [show P i₁ j - mn = mx - mn by rw [hmax]]
    rw [div_self hD]
    ring
  · positivity
  · intro i
    rw [hval i]
    field_simp
    ring

/-- Concrete instance for the rescaling theorem: a two-point batch in one
dimension with an identity feature extractor, features 0 and 2. -/
def dklW : DKL.GPRegressionModel 1 1 0 :=
  ⟨fun v => v, 0, fun _ _ => 0, fun _ _ => 0, fun _ => 0, 1⟩

/-- Concrete two-point input batch for the rescaling witness. -/
def dklWx : Matrix (Fin 2) (Fin 1) ℚ :=
  fun i _ => 2 * (i.val : ℚ)

theorem dklW_colMin : DKL.colMin dklWx 0 = 0 := by
  apply le_antisymm
  · have h := DKL.colMin_le dklWx 0 0
    simpa [dklWx] using h
  · apply Finset.le_inf'
    intro i _
    fin_cases i <;> norm_num [dklWx]

theorem dklW_colMax : DKL.colMax dklWx 0 = 2 := by
  apply le_antisymm
  · apply DKL.colMax_le
    intro i
    fin_cases i <;> norm_num [dklWx]
  · have h := DKL.le_colMax dklWx 1 0
    simpa [dklWx] using h

/-- Witness for `dkl_forward_applies_extractor_then_rescale` at the concrete
batch `dklWx`: the hypotheses hold there and the batch minimum feature maps
to −1 and the maximum to +1. -/
theorem dkl_forward_rescale_witness :
    (DKL.extractOut dklW dklWx 0 0 = DKL.colMin (DKL.extractOut dklW dklWx) 0 ∧
     DKL.extractOut dklW dklWx 1 0 = DKL.colMax (DKL.extractOut dklW dklWx) 0 ∧
     DKL.colMin (DKL.extractOut dklW dklWx) 0 < DKL.colMax (DKL.extractOut dklW dklWx) 0) ∧
    DKL.projectedFeatures dklW dklWx 0 0 = -1 ∧
    DKL.projectedFeatures dklW dklWx 1 0 = 1 := by
  have hext : DKL.extractOut dklW dklWx = dklWx := rfl
  have hmin : DKL.extractOut dklW dklWx 0 0 = DKL.colMin (DKL.extractOut dklW dklWx) 0 := by
    rw [hext, dklW_colMin]
    norm_num [dklWx]
  have hmax : DKL.extractOut dklW dklWx 1 0 = DKL.colMax (DKL.extractOut dklW dklWx) 0 := by
    rw [hext, dklW_colMax]
    norm_num [dklWx]
  have hlt : DKL.colMin (DKL.extractOut dklW dklWx) 0
      < DKL.colMax (DKL.extractOut dklW dklWx) 0 := by
    rw [hext, dklW_colMin, dklW_colMax]
    norm_num
  have main := dkl_forward_applies_extractor_then_rescale dklW dklWx 0 0 1 hmin hmax hlt
  exact ⟨⟨hmin, hmax, hlt⟩, main.2.2.1, main.2.2.2.1⟩

/-- C2: the feature-rescaling step is part of the forward computation and is
applied identically in TRAIN and EVAL mode: the projected features handed to
the kernel are the same for both modes, are unchanged under arbitrary changes
of the stored training inputs, targets and noise (so no training-batch
statistics are cached or reused at prediction time), and equal a fixed pure
function of the current batch and the extractor alone (so two runs with the
same batch and parameters agree). -/
theorem dkl_rescaling_independent_of_mode_and_cache :
    ∀ (d k nt nt' t : ℕ) (mo mo' : GP.Mode)
      (f : (Fin d → ℚ) → (Fin k → ℚ)) (c : ℚ)
      (kf : (Fin k → ℚ) → (Fin k → ℚ) → ℚ)
      (tX : Matrix (Fin (nt + 1)) (Fin d) ℚ) (tY : Fin (nt + 1) → ℚ) (ns : ℚ)
      (tX' : Matrix (Fin (nt' + 1)) (Fin d) ℚ) (tY' : Fin (nt' + 1) → ℚ) (ns' : ℚ)
      (x : Matrix (Fin (t + 1)) (Fin d) ℚ),
      (DKL.dklCall mo ⟨f, c, kf, tX, tY, ns⟩ x).featuresToKernel
        = (DKL.dklCall mo' ⟨f, c, kf, tX', tY', ns'⟩ x).featuresToKernel ∧
      (DKL.dklCall mo ⟨f, c, kf, tX, tY, ns⟩ x).featuresToKernel
        = DKL.scaleUnit (DKL.subMin (fun i => f (x i))) := by
  intro d k nt nt' t mo mo' f c kf tX tY ns tX' tY' ns' x
  cases mo <;> cases mo' <;> exact ⟨rfl, rfl⟩

/-- C9: the per-feature rescaling of the deep-kernel forward pass divides by
the per-feature maximum of the min-shifted batch (`scaleUnit` applied to
`subMin` of the extractor output), with no guard. That denominator is zero
precisely when the feature is constant over the batch — i.e. the division is
well-defined only when the feature takes at least two distinct values — and
for any batch of size 1 it is always zero. -/
theorem dkl_rescale_denominator_zero_iff_constant :
    ∀ (n k : ℕ) (P : Matrix (Fin (n + 1)) (Fin k) ℚ) (j : Fin k),
      (DKL.colMax (DKL.subMin P) j = 0 ↔ ∀ i i' : Fin (n + 1), P i j = P i' j) ∧
      (∀ P1 : Matrix (Fin 1) (Fin k) ℚ, DKL.colMax (DKL.subMin P1) j = 0) := by
  have key : ∀ (n k : ℕ) (P : Matrix (Fin (n + 1)) (Fin k) ℚ) (j : Fin k),
      DKL.colMax (DKL.subMin P) j = 0 ↔ ∀ i i' : Fin (n + 1), P i j = P i' j := by
    intro n k P j
    constructor
    · intro h i i'
      have hle : ∀ i, DKL.subMin P i j ≤ 0 := fun i => h ▸ DKL.le_colMax (DKL.subMin P) i j
      have hge : ∀ i, 0 ≤ DKL.subMin P i j := fun i =>
        sub_nonneg.mpr (DKL.colMin_le P i j)
      have heq : ∀ i, P i j = DKL.colMin P j := by
        intro i
        have := le_antisymm (hle i) (hge i)
        have h2 : DKL.subMin P i j = P i j - DKL.colMin P j := rfl
        linarith [h2 ▸ this]
      rw [heq i, heq i']
    · intro hconst
      have hmin : DKL.colMin P j = P 0 j :=
        le_antisymm (DKL.colMin_le P 0 j)
          (Finset.le_inf' _ _ fun i _ => le_of_eq (hconst 0 i))
      apply le_antisymm
      · apply DKL.colMax_le
        intro i
        have h2 : DKL.subMin P i j = P i j - DKL.colMin P j := rfl
        rw [h2, hmin, hconst i 0]
        simp
      · have := DKL.le_colMax (DKL.subMin P) 0 j
        have h2 : DKL.subMin P 0 j = P 0 j - DKL.colMin P j := rfl
        rw [h2, hmin] at this
        simpa using this
  intro n k P j
  refine ⟨key n k P j, fun P1 => (key 0 k P1 j).mpr fun i i' => ?_⟩
  have hi : i = i' := Fin.ext (by omega)
  rw [hi]

/-- The ambient global settings read by the library at a call: the
`gpytorch.settings.use_toeplitz` and `gpytorch.fast_pred_var` context
managers of the examples. -/
structure GlobalSettings where
  use_toeplitz : Bool
  fast_pred_var : Bool
deriving DecidableEq

/-- The variance computation path at prediction time: exact, or the fast
LOVE approximation. -/
inductive VariancePath where
  | exactPath : VariancePath
  | lovePath : VariancePath
deriving DecidableEq

/-- The matrix-multiplication path for the SKI grid kernel: dense, or
Toeplitz-structure exploitation. -/
inductive MatmulPath where
  | densePath : MatmulPath
  | toeplitzPath : MatmulPath
deriving DecidableEq

/-- Modelled from the spec: the `gpytorch.settings` machinery is library code
not present under src. The examples surround calls with `with` blocks
(`with gpytorch.settings.use_toeplitz(True): train()` and
`with ... gpytorch.settings.use_toeplitz(False), gpytorch.fast_pred_var():
preds = model(test_x)`), and the call itself receives only the input batch;
the computation paths are read from whatever settings are ambient at the
call. -/
def selectPaths {t d : ℕ} (s : GlobalSettings)
    (_testX : Matrix (Fin t) (Fin d) ℚ) : MatmulPath × VariancePath :=
  (if s.use_toeplitz then MatmulPath.toeplitzPath else MatmulPath.densePath,
   if s.fast_pred_var then VariancePath.lovePath else VariancePath.exactPath)

/-- Ambient settings around the deep-kernel training call in the notebook:
`with gpytorch.settings.use_toeplitz(True): train()`. -/
def dklTrainSettings : GlobalSettings := ⟨true, false⟩

/-- Ambient settings around the deep-kernel prediction call in the notebook:
`with torch.no_grad(), gpytorch.settings.use_toeplitz(False),
gpytorch.fast_pred_var(): preds = model(test_x)`. -/
def dklPredSettings : GlobalSettings := ⟨false, true⟩

/-- A fixed concrete batch used as the identical explicit argument of two
calls. -/
def c3TestX : Matrix (Fin 1) (Fin 1) ℚ := fun _ _ => 0

/-- C3 counterexample: two calls with the identical explicit argument
(`model(test_x)` takes only the batch; there are no per-call path flags in
the code) take different computation paths under the two ambient settings
that actually surround the calls in the source, refuting the claim that the
path is independent of surrounding global state and selected by per-call
flags threaded through the call. -/
theorem paths_depend_on_ambient_settings :
    selectPaths dklTrainSettings c3TestX ≠ selectPaths dklPredSettings c3TestX := by
  decide

/-- C3 amended: the approximate paths are opted into by the caller via scoped
settings that are ambient global state surrounding the call rather than
per-call arguments: the selected paths are a deterministic function of the
ambient settings alone, unaffected by the explicit call argument, and are
never silently substituted — the LOVE variance path is taken exactly when
`fast_pred_var` is set and the Toeplitz path exactly when `use_toeplitz` is
set, with the exact/dense paths taken otherwise. -/
theorem paths_determined_by_settings_only :
    ∀ (s : GlobalSettings) (t d t' d' : ℕ)
      (X : Matrix (Fin t) (Fin d) ℚ) (X' : Matrix (Fin t') (Fin d') ℚ),
      selectPaths s X = selectPaths s X' ∧
      ((selectPaths s X).2 = VariancePath.lovePath ↔ s.fast_pred_var = true) ∧
      ((selectPaths s X).1 = MatmulPath.toeplitzPath ↔ s.use_toeplitz = true) := by
  intro s t d t' d' X X'
  obtain ⟨ut, fpv⟩ := s
  refine ⟨rfl, ?_, ?_⟩
  · cases fpv <;> simp [selectPaths]
  · cases ut <;> simp [selectPaths]

/-- Modelled from the spec: `GaussianLikelihood` applied to a latent
multivariate normal (library code not present under src) adds the noise
variance to the diagonal of the covariance (spec section 3: "scalar variance
added to the diagonal of the covariance"). -/
def gaussianLikelihoodMarginal {α : Type} [Field α] {t : ℕ} (noise : α)
    (dist : MVN α t) : MVN α t :=
  ⟨dist.mean, dist.covar + noise • (1 : Matrix (Fin t) (Fin t) α)⟩

/-- The spectral-mixture example's prediction:
`observed_pred = likelihood(model(test_x))` with the model in EVAL mode. -/
def smObservedPred {α : Type} [Field α] {n d t : ℕ} (m : ExactGPState α n d)
    (X : Matrix (Fin t) (Fin d) α) : MVN α t :=
  gaussianLikelihoodMarginal m.noise (exactGPCall Mode.EVAL m X)

/-- The deep-kernel example's prediction: `preds = model(test_x)` with the
model in EVAL mode, not passed through the likelihood. -/
def dklDirectPred {α : Type} [Field α] {n d t : ℕ} (m : ExactGPState α n d)
    (X : Matrix (Fin t) (Fin d) α) : MVN α t :=
  exactGPCall Mode.EVAL m X

/-- C10: the two prediction paths differ in whether observation noise is in
the returned variance: the spectral-mixture example passes the model output
through the likelihood, so every diagonal entry of its returned covariance is
the latent posterior variance plus the noise variance, while the deep-kernel
example queries the model directly, so its returned variance is exactly the
noise-free latent posterior variance. -/
theorem prediction_paths_noise_inclusion :
    ∀ (n d t : ℕ) (m : ExactGPState ℚ n d) (X : Matrix (Fin t) (Fin d) ℚ)
      (i : Fin t),
      (smObservedPred m X).covar i i = (posteriorDist m X).covar i i + m.noise ∧
      (smObservedPred m X).mean = (posteriorDist m X).mean ∧
      (dklDirectPred m X).covar i i = (posteriorDist m X).covar i i ∧
      (dklDirectPred m X).mean = (posteriorDist m X).mean := by
  intro n d t m X i
  refine ⟨?_, rfl, rfl, rfl⟩
  show ((posteriorDist m X).covar + m.noise • (1 : Matrix (Fin t) (Fin t) ℚ)) i i
      = (posteriorDist m X).covar i i + m.noise
  simp [Matrix.add_apply, Matrix.smul_apply, Matrix.one_apply_eq]

/-- Modelled from the spec: `ExactMarginalLogLikelihood` is library code not
present under src. Spec section 4.6: given model output mean and covariance
`S = K + sigma2 I` and targets `y` of length `n`, the objective is
`L = −(1/2)(y−mu)ᵗ S⁻¹ (y−mu) − (1/2) log det S − (n/2) log 2π`. -/
noncomputable def ExactMarginalLogLikelihood {t : ℕ} (μ : Fin t → ℝ)
    (S : Matrix (Fin t) (Fin t) ℝ) (y : Fin t → ℝ) : ℝ :=
  -(1 / 2) * Matrix.dotProduct (fun i => y i - μ i)
      ((matInv S).mulVec (fun i => y i - μ i))
    - (1 / 2) * Real.log S.det
    - ((t : ℝ) / 2) * Real.log (2 * Real.pi)

/-- The per-iteration training loss of both notebooks:
`loss = -mll(output, train_y)`. -/
noncomputable def trainingLoss {t : ℕ} (μ : Fin t → ℝ)
    (S : Matrix (Fin t) (Fin t) ℝ) (y : Fin t → ℝ) : ℝ :=
  -(ExactMarginalLogLikelihood μ S y)

/-- The training objective evaluated on a fitted model: the marginal
log-likelihood of the stored targets under the prior at the stored training
inputs, with the noise variance added to the covariance diagonal. -/
noncomputable def trainingObjective {n d : ℕ} (m : ExactGPState ℝ n d) : ℝ :=
  ExactMarginalLogLikelihood (priorDist m m.trainX).mean
    ((priorDist m m.trainX).covar + m.noise • (1 : Matrix (Fin n) (Fin n) ℝ))
    m.trainY

/-- C5: the marginal-likelihood objective returns the scalar
`L = −(1/2)(y−mu)ᵗ S⁻¹ (y−mu) − (1/2) log det S − (n/2) log 2π`, the
per-iteration training loss equals `−L`, and maximizing `L` is equivalent to
minimizing the loss; on a fitted model the objective is this formula at the
prior mean and `K + sigma2 I`. -/
theorem mll_formula_and_loss_negation :
    ∀ (t : ℕ) (μ y : Fin t → ℝ) (S : Matrix (Fin t) (Fin t) ℝ),
      ExactMarginalLogLikelihood μ S y
        = -(1 / 2) * Matrix.dotProduct (fun i => y i - μ i)
              ((matInv S).mulVec (fun i => y i - μ i))
            - (1 / 2) * Real.log S.det
            - ((t : ℝ) / 2) * Real.log (2 * Real.pi) ∧
      trainingLoss μ S y = -(ExactMarginalLogLikelihood μ S y) ∧
      (∀ (μ' y' : Fin t → ℝ) (S' : Matrix (Fin t) (Fin t) ℝ),
        ExactMarginalLogLikelihood μ' S' y' ≤ ExactMarginalLogLikelihood μ S y
          ↔ trainingLoss μ S y ≤ trainingLoss μ' S' y') ∧
      (∀ (n d : ℕ) (m : ExactGPState ℝ n d),
        trainingObjective m
          = ExactMarginalLogLikelihood (priorDist m m.trainX).mean
              ((priorDist m m.trainX).covar + m.noise • (1 : Matrix (Fin n) (Fin n) ℝ))
              m.trainY) := by
  intro t μ y S
  refine ⟨rfl, rfl, ?_, fun n d m => rfl⟩
  intro μ' y' S'
  constructor
  · intro h
    exact neg_le_neg h
  · intro h
    have := neg_le_neg h
    simpa [trainingLoss] using this

/-- Modelled from the spec: the `confidence_region` helper is library code
not present under src. Per the spec (section 4.7) and the notebook's own
description, it returns exactly 2 standard deviations below and above the
mean, the standard deviation being the square root of the diagonal of the
covariance. -/
noncomputable def confidence_region {t : ℕ} (dist : MVN ℝ t) :
    (Fin t → ℝ) × (Fin t → ℝ) :=
  (fun i => dist.mean i - 2 * Real.sqrt (dist.covar i i),
   fun i => dist.mean i + 2 * Real.sqrt (dist.covar i i))

/-- The generic caller-chosen-z confidence region of spec section 4.7:
`mean ± z·sqrt(diag)`. -/
noncomputable def confRegionZ (z : ℝ) {t : ℕ} (dist : MVN ℝ t) :
    (Fin t → ℝ) × (Fin t → ℝ) :=
  (fun i => dist.mean i - z * Real.sqrt (dist.covar i i),
   fun i => dist.mean i + z * Real.sqrt (dist.covar i i))

/-- C6: for every fitted model in EVAL state and every test batch, the
confidence region is the posterior mean plus and minus z times the square
root of the diagonal of the posterior covariance, and the helper used in the
example is exactly the instance z = 2. -/
theorem confidence_region_mean_pm_two_stddev :
    ∀ (n d t : ℕ) (m : ExactGPState ℝ n d) (X : Matrix (Fin t) (Fin d) ℝ),
      confidence_region (exactGPCall Mode.EVAL m X)
        = confRegionZ 2 (exactGPCall Mode.EVAL m X) ∧
      (confidence_region (exactGPCall Mode.EVAL m X)).1
        = (fun i => (posteriorDist m X).mean i
            - 2 * Real.sqrt ((posteriorDist m X).covar i i)) ∧
      (confidence_region (exactGPCall Mode.EVAL m X)).2
        = (fun i => (posteriorDist m X).mean i
            + 2 * Real.sqrt ((posteriorDist m X).covar i i)) := by
  intro n d t m X
  exact ⟨rfl, rfl, rfl⟩

/-- The softplus positivity transform of spec section 4.1, through which the
constrained-positive kernel parameters are produced from unconstrained raw
values. -/
noncomputable def softplus (x : ℝ) : ℝ := Real.log (1 + Real.exp x)

/-- Raw (unconstrained) parameters of a spectral-mixture kernel with Q
components: anything gradient descent can reach. -/
structure SMKernelParams (Q : ℕ) where
  rawWeights : Fin Q → ℝ
  rawSpreads : Fin Q → ℝ
  freqMeans : Fin Q → ℝ

/-- The positive mixture weight of component q. -/
noncomputable def SMKernelParams.weight {Q : ℕ} (p : SMKernelParams Q)
    (q : Fin Q) : ℝ :=
  softplus (p.rawWeights q)

/-- The positive frequency spread of component q. -/
noncomputable def SMKernelParams.spread {Q : ℕ} (p : SMKernelParams Q)
    (q : Fin Q) : ℝ :=
  softplus (p.rawSpreads q)

/-- Modelled from the spec: `SpectralMixtureKernel` is library code not
present under src. Spec section 4.1:
`k(τ) = Σ_q w_q · exp(−2π²τ²v_q) · cos(2πτμ_q)` with `τ = x − x'`, all
weights and spreads constrained positive. -/
noncomputable def SpectralMixtureKernel {Q : ℕ} (p : SMKernelParams Q)
    (τ : ℝ) : ℝ :=
  ∑ q : Fin Q, p.weight q * Real.exp (-(2 * Real.pi ^ 2 * τ ^ 2 * p.spread q))
    * Real.cos (2 * Real.pi * τ * p.freqMeans q)

theorem softplus_pos (x : ℝ) : 0 < softplus x := by
  have h := Real.exp_pos x
  exact Real.log_pos (by linarith)

/-- C7: the spectral-mixture kernel with Q components evaluates, for every
pair of inputs x, x' with τ = x − x', to
`Σ_q w_q · exp(−2π²τ²v_q) · cos(2πτμ_q)`, and every mixture weight and every
spread is strictly positive at every raw parameter setting reachable by
unconstrained optimization. -/
theorem sm_kernel_formula_and_positivity :
    ∀ (Q : ℕ) (p : SMKernelParams Q) (x x' : ℝ),
      SpectralMixtureKernel p (x - x')
        = ∑ q : Fin Q, p.weight q
            * Real.exp (-(2 * Real.pi ^ 2 * (x - x') ^ 2 * p.spread q))
            * Real.cos (2 * Real.pi * (x - x') * p.freqMeans q) ∧
      ∀ q : Fin Q, 0 < p.weight q ∧ 0 < p.spread q := by
  intro Q p x x'
  exact ⟨rfl, fun q => ⟨softplus_pos _, softplus_pos _⟩⟩

/-- The spectral-mixture notebook's training inputs:
`train_x = torch.linspace(0, 1, 15)`, i.e. the i-th of 15 regularly spaced
points on [0, 1]. -/
noncomputable def smTrainX (i : Fin 15) : ℝ := (i.val : ℝ) / 14

/-- The spectral-mixture notebook's training targets:
`train_y = torch.sin(train_x * (2 * math.pi))` — note that, despite the
notebook's own markdown ("... and add Gaussian noise to get the training
labels"), no noise term is added. -/
noncomputable def smTrainY (i : Fin 15) : ℝ := Real.sin (smTrainX i * (2 * Real.pi))

/-- The per-iteration losses recorded in the spectral-mixture notebook's
training-cell output, iterations 1 through 50 (of 100), at the fixed Adam
learning rate 0.1. -/
def smLossTrace : List ℚ :=
  [1.339, 1.303, 1.248, 1.219, 1.170, 1.109, 1.088, 1.059, 1.008, 0.953,
   0.906, 0.887, 0.811, 0.762, 0.715, 0.683, 0.639, 0.585, 0.542, 0.498,
   0.467, 0.402, 0.349, 0.313, 0.251, 0.214, 0.172, 0.148, 0.122, 0.036,
   -0.020, -0.073, -0.102, -0.163, -0.146, -0.174, -0.216, -0.289, -0.393,
   -0.430, -0.331, -0.388, -0.504, -0.629, -0.570, -0.578, -0.728, -0.787,
   -0.186, -0.532]

/-- C8 evidence: the training targets the code constructs are exactly
`sin(2πx)` with no noise term (contradicting the notebook's own markdown and
the claim's data description), while the loss-decrease half of the claim does
hold on the recorded run: the loss at iteration 50 is strictly lower than at
iteration 1. -/
theorem sm_training_data_noiseless_and_loss_decreases :
    (∀ i : Fin 15, smTrainY i = Real.sin (((i.val : ℝ) / 14) * (2 * Real.pi))) ∧
    smLossTrace.length = 50 ∧
    smLossTrace.getD 49 0 < smLossTrace.getD 0 0 := by
  refine ⟨fun i => rfl, by decide, ?_⟩
  norm_num [smLossTrace]

end GP
